import Mathlib

/-
Verification development for the Irish-grid UMM status map
(`update_status.py`).  The Python source is shallowly embedded: strings
are lists of characters, JSON values are an inductive type, Python dicts
are insertion-ordered association lists, floats are rationals, UTC
instants are integers, and exceptions are modelled with `Except`.
The external `dateutil.parser.isoparse` routine (a third-party library,
not part of this repository) is abstracted as a parameter
`parse : Str -> Option Int` returning the UTC instant of a parsable
timestamp string and `none` where `isoparse` would raise.
-/

namespace UMM

/-- Python strings, modelled as lists of characters. -/
abbrev Str := List Char

/-- JSON-ish values as produced by `json` / `requests.Response.json()`.
Numbers are modelled as rationals (Python floats abstracted exactly). -/
inductive JVal where
  | jnull
  | jbool (b : Bool)
  | jnum (q : ℚ)
  | jstr (s : Str)
  | jarr (xs : List JVal)
  | jobj (fs : List (Str × JVal))

/-- Whether a `JVal` is a JSON object (a Python `dict`). -/
def JVal.isObj : JVal → Bool
  | .jobj _ => true
  | _ => false

/-- Whether a `JVal` is a JSON array (a Python `list`). -/
def JVal.isArr : JVal → Bool
  | .jarr _ => true
  | _ => false

/-- Whether a `JVal` is a JSON string. -/
def JVal.isStr : JVal → Bool
  | .jstr _ => true
  | _ => false

/-- Python truthiness (`bool(v)`) is false: models `not v` on decoded
JSON values (`None`, `False`, `0`, `""`, `[]` and the empty dict are falsy). -/
def falsy : JVal → Bool
  | .jnull => true
  | .jbool b => !b
  | .jnum q => q == 0
  | .jstr s => s.isEmpty
  | .jarr xs => xs.isEmpty
  | .jobj fs => fs.isEmpty

/-- First-match association-list lookup over JSON object fields. -/
def jlookup (fs : List (Str × JVal)) (k : Str) : Option JVal :=
  match fs with
  | [] => none
  | (k2, v) :: t => if k2 = k then some v else jlookup t k

/-- Python `d.get(k)` on a JSON object: `None` when absent.  Only used
where the receiver is already known to be a dict. -/
def jget (v : JVal) (k : Str) : JVal :=
  match v with
  | .jobj fs => (jlookup fs k).getD .jnull
  | _ => .jnull

/-- Python `d.get(k)` / `k in d` on an insertion-ordered dict modelled
as an association list (first match). -/
def dictGet {α : Type} (m : List (Str × α)) (k : Str) : Option α :=
  match m with
  | [] => none
  | (k2, v) :: t => if k2 = k then some v else dictGet t k

/-- Python `d[k] = v`: overwrite in place when the key exists (keeping
its original insertion position), else append at the end. -/
def dictInsert {α : Type} (m : List (Str × α)) (k : Str) (v : α) : List (Str × α) :=
  match m with
  | [] => [(k, v)]
  | (k2, v2) :: t => if k2 = k then (k2, v) :: t else (k2, v2) :: dictInsert t k v

/-- ASCII decimal digit test (the `\d` of the `GU_\d+` pattern, restricted
to ASCII as all registry and message codes are ASCII). -/
def isDigitCh (c : Char) : Bool := 48 ≤ c.toNat && c.toNat ≤ 57

/-- ASCII lower-case letter test. -/
def isLowerCh (c : Char) : Bool := 97 ≤ c.toNat && c.toNat ≤ 122

/-- Python `str.upper()` on one character (ASCII fragment, which is all
the `GU_` pattern can interact with). -/
def pyUpper (c : Char) : Char :=
  if isLowerCh c then Char.ofNat (c.toNat - 32) else c

/-- Python whitespace for `str.strip()` (ASCII fragment). -/
def pyIsSpace (c : Char) : Bool :=
  c = ' ' || c = '\t' || c = '\n' || c = '\r' || c.toNat = 11 || c.toNat = 12

/-- Python `str.strip()`. -/
def pyStrip (s : Str) : Str :=
  ((s.dropWhile pyIsSpace).reverse.dropWhile pyIsSpace).reverse

/-- Attempt of the regex `GU_\d+` to match at the head of the string:
the literal `GU_` followed by the maximal (greedy) nonempty digit run. -/
def guMatchAt (s : Str) : Option Str :=
  match s with
  | g :: u :: us :: rest =>
    if g = 'G' ∧ u = 'U' ∧ us = '_' then
      let ds := rest.takeWhile isDigitCh
      if ds.isEmpty then none else some ('G' :: 'U' :: '_' :: ds)
    else none
  | _ => none

/-- `re.search` for `GU_\d+`: leftmost position wins. -/
def guSearch (s : Str) : Option Str :=
  match s with
  | [] => none
  | c :: cs =>
    match guMatchAt (c :: cs) with
    | some m => some m
    | none => guSearch cs

/-- `extract_gu` (update_status.py lines 31-35): `None` unless the input
is a string; else search `GU_\d+` in the upper-cased text. -/
def extract_gu (v : JVal) : Option Str :=
  match v with
  | .jstr s => guSearch (s.map pyUpper)
  | _ => none

/-- Whether a string is exactly of the form `GU_` followed by one or
more ASCII digits (full-string version of the extraction pattern). -/
def isGuCode (s : Str) : Bool :=
  match s with
  | g :: u :: us :: ds =>
    g == 'G' && u == 'U' && us == '_' && !ds.isEmpty && ds.all isDigitCh
  | _ => false

/-- Field-name constants of the UMM API payload. -/
def kItems : Str := "items".toList

/-- Field name `generationUnits`. -/
def kGenerationUnits : Str := "generationUnits".toList

/-- Field name `name`. -/
def kName : Str := "name".toList

/-- Field name `timePeriods`. -/
def kTimePeriods : Str := "timePeriods".toList

/-- Field name `eventStart`. -/
def kEventStart : Str := "eventStart".toList

/-- Field name `eventStop`. -/
def kEventStop : Str := "eventStop".toList

/-- Field name `availableCapacity`. -/
def kAvailableCapacity : Str := "availableCapacity".toList

/-- Field name `unavailableCapacity`. -/
def kUnavailableCapacity : Str := "unavailableCapacity".toList

/-- `iso_to_dt` (update_status.py lines 38-44): a falsy input (`None`,
`""`, ...) yields `None`; otherwise `dtparser.isoparse` runs with NO
exception handler, so an unparsable string (ValueError) or a truthy
non-string (TypeError) propagates an exception, modelled as `.error ()`.
Timezone normalization to UTC is folded into `parse`. -/
def iso_to_dt (parse : Str → Option Int) (v : JVal) : Except Unit (Option Int) :=
  if falsy v then .ok none
  else
    match v with
    | .jstr s =>
      match parse s with
      | some t => .ok (some t)
      | none => .error ()
    | _ => .error ()

/-- The value `iso_to_dt` yields when it does not raise: `none` for
falsy input, else the parse result. -/
def dtOptOf (parse : Str → Option Int) (v : JVal) : Option Int :=
  if falsy v then none
  else
    match v with
    | .jstr s => parse s
    | _ => none

/-- Whether `iso_to_dt` is exception-free on this value: falsy, or a
string the timestamp parser accepts. -/
def jvalSafeDt (parse : Str → Option Int) (v : JVal) : Bool :=
  falsy v ||
    match v with
    | .jstr s => (parse s).isSome
    | _ => false

/-- The local helper `num` of `parse_time_period_for_now` (lines 99-100):
`float(x)` when `isinstance(x, (int, float))`, else `None`.  Python bools
are instances of `int`, so JSON booleans convert to 1.0 / 0.0. -/
def num (v : JVal) : Option ℚ :=
  match v with
  | .jnum q => some q
  | .jbool b => some (if b then 1 else 0)
  | _ => none

/-- The `for tp in tps` loop of `parse_time_period_for_now`
(lines 102-122).  Non-dict entries are skipped; both endpoints are
parsed (either may raise) BEFORE the `if not start or not stop` check;
a period containing `now` inclusively with both capacities numeric is
returned immediately; otherwise iteration continues. -/
def tpLoop (parse : Str → Option Int) (now : Int) : List JVal → Except Unit (Option (ℚ × ℚ))
  | [] => .ok none
  | tp :: rest =>
    if tp.isObj then
      match iso_to_dt parse (jget tp kEventStart) with
      | .error e => .error e
      | .ok startOpt =>
        match iso_to_dt parse (jget tp kEventStop) with
        | .error e => .error e
        | .ok stopOpt =>
          match startOpt, stopOpt with
          | some s, some e =>
            if s ≤ now ∧ now ≤ e then
              match num (jget tp kAvailableCapacity), num (jget tp kUnavailableCapacity) with
              | some a, some u => .ok (some (a, u))
              | _, _ => tpLoop parse now rest
            else tpLoop parse now rest
          | _, _ => tpLoop parse now rest
    else tpLoop parse now rest

/-- `parse_time_period_for_now` (lines 89-122).  `gu_obj.get` on a
non-dict would raise (AttributeError), modelled as `.error ()`; a
missing or non-list `timePeriods` yields `None`. -/
def parse_time_period_for_now (parse : Str → Option Int) (gu_obj : JVal) (now : Int) :
    Except Unit (Option (ℚ × ℚ)) :=
  match gu_obj with
  | .jobj _ =>
    match jget gu_obj kTimePeriods with
    | .jarr tps => tpLoop parse now tps
    | _ => .ok none
  | _ => .error ()

/-- What one time-period entry contributes when the loop reaches it
without raising: the (available, unavailable) pair if the period is a
dict, both endpoints yield instants, `now` lies within them inclusively
and both capacities are numeric; else nothing (the entry is skipped). -/
def tpSelect (parse : Str → Option Int) (now : Int) (tp : JVal) : Option (ℚ × ℚ) :=
  if tp.isObj then
    match dtOptOf parse (jget tp kEventStart), dtOptOf parse (jget tp kEventStop) with
    | some s, some e =>
      if s ≤ now ∧ now ≤ e then
        match num (jget tp kAvailableCapacity), num (jget tp kUnavailableCapacity) with
        | some a, some u => some (a, u)
        | _, _ => none
      else none
    | _, _ => none
  else none

/-- The parsed (start, stop) endpoints of a time-period entry, when both
are available without raising. -/
def tpTimesOf (parse : Str → Option Int) (tp : JVal) : Option (Int × Int) :=
  if tp.isObj then
    match dtOptOf parse (jget tp kEventStart), dtOptOf parse (jget tp kEventStop) with
    | some s, some e => some (s, e)
    | _, _ => none
  else none

/-- Whether processing this time-period entry cannot raise: either it is
not a dict (skipped before timestamps), or both timestamp fields are
exception-free for `iso_to_dt`. -/
def tpSafe (parse : Str → Option Int) (tp : JVal) : Bool :=
  !tp.isObj ||
    (jvalSafeDt parse (jget tp kEventStart) && jvalSafeDt parse (jget tp kEventStop))

/-- `status_from_availability` (lines 125-130). -/
def status_from_availability (avail unavail : ℚ) : Str :=
  if unavail = 0 then "online".toList
  else if avail = 0 then "offline".toList
  else "partial".toList

/-- The `Generator` dataclass (lines 22-28). -/
structure Generator where
  infrastructure : Str
  gu_code : Str
  lat : ℚ
  lon : ℚ
  fuel : Str
deriving DecidableEq

/-- One `csv.DictReader` row: each header column maps to the cell text,
`none` when the column is absent or the row is short. -/
structure Row where
  infrastructure : Option Str
  lat : Option Str
  lon : Option Str
  fuel : Option Str
deriving DecidableEq

/-- Registry mapping: insertion-ordered dict from GU code to record. -/
abbrev GenMap := List (Str × Generator)

/-- Per-run state: insertion-ordered dict from GU code to the pair
(available MW, unavailable MW). -/
abbrev StateMap := List (Str × (ℚ × ℚ))

/-- `float(row["lat"])` on a CSV cell: a missing cell (KeyError /
TypeError on `float(None)`) or a non-numeric cell (ValueError) raises;
the Python `float` literal parser is abstracted as `fp`. -/
def pyFloatCell (fp : Str → Option ℚ) (cell : Option Str) : Except Unit ℚ :=
  match cell with
  | some s =>
    match fp s with
    | some q => .ok q
    | none => .error ()
  | none => .error ()

/-- One row of the `load_generators` loop (lines 58-74): skip rows with
empty stripped infrastructure or no extractable GU code, else store the
record under the extracted code (later rows overwrite earlier ones). -/
def loadStep (fp : Str → Option ℚ) (gens : GenMap) (row : Row) : Except Unit GenMap :=
  let infra := pyStrip (row.infrastructure.getD [])
  if infra.isEmpty then .ok gens
  else
    match extract_gu (.jstr infra) with
    | none => .ok gens
    | some gu =>
      match pyFloatCell fp row.lat with
      | .error e => .error e
      | .ok lat =>
        match pyFloatCell fp row.lon with
        | .error e => .error e
        | .ok lon =>
          .ok (dictInsert gens gu
            { infrastructure := infra, gu_code := gu, lat := lat, lon := lon,
              fuel := pyStrip (row.fuel.getD []) })

/-- `load_generators` (lines 47-75) over already-decoded CSV rows. -/
def load_generators (fp : Str → Option ℚ) (rows : List Row) : Except Unit GenMap :=
  List.foldlM (loadStep fp) [] rows

/-- The state update of `main` (lines 174-177): first pair is stored;
a later pair replaces the stored one only when its unavailable
component is strictly larger. -/
def mergeState (state : StateMap) (gu : Str) (p : ℚ × ℚ) : StateMap :=
  match dictGet state gu with
  | none => dictInsert state gu p
  | some prev => if prev.2 < p.2 then dictInsert state gu p else state

/-- The inner `for gu_obj in gus` body of `main` (lines 156-177).
`if not gu` is falsy for `None` and for the empty string, modelled
exactly; an unmatched or periodless unit leaves the state unchanged. -/
def processGu (parse : Str → Option Int) (now : Int) (generators : GenMap)
    (state : StateMap) (gu_obj : JVal) : Except Unit StateMap :=
  if gu_obj.isObj then
    match
      (match jget gu_obj kName with
       | .jstr s => extract_gu (.jstr s)
       | _ => none) with
    | none => .ok state
    | some gu =>
      if gu.isEmpty then .ok state
      else if (dictGet generators gu).isSome then
        match parse_time_period_for_now parse gu_obj now with
        | .error e => .error e
        | .ok none => .ok state
        | .ok (some p) => .ok (mergeState state gu p)
      else .ok state
  else .ok state

/-- The outer `for msg in items` body of `main` (lines 148-154):
non-dict messages and messages without a `generationUnits` list are
skipped. -/
def processMsg (parse : Str → Option Int) (now : Int) (generators : GenMap)
    (state : StateMap) (msg : JVal) : Except Unit StateMap :=
  if msg.isObj then
    match jget msg kGenerationUnits with
    | .jarr gus => List.foldlM (processGu parse now generators) state gus
    | _ => .ok state
  else .ok state

/-- State accumulation of `main` over all fetched items (lines 146-177). -/
def buildState (parse : Str → Option Int) (now : Int) (generators : GenMap)
    (items : List JVal) : Except Unit StateMap :=
  List.foldlM (processMsg parse now generators) [] items

/-- `payload.get("items", [])` plus the list check (lines 139-141):
missing or non-list `items` becomes the empty list; `.get` on a
non-dict payload raises. -/
def getItems (payload : JVal) : Except Unit (List JVal) :=
  match payload with
  | .jobj fs =>
    match (jlookup fs kItems).getD (.jarr []) with
    | .jarr xs => .ok xs
    | _ => .ok []
  | _ => .error ()

/-- Floor of a rational, computed with Euclidean-style integer division
(`Int.fdiv`, the denominator being positive). -/
def ratFloor (q : ℚ) : ℤ := Int.fdiv q.num q.den

/-- Round-half-to-even on rationals (Python `round` to 0 places,
abstracting from binary-float representation error). -/
def roundHalfEven (q : ℚ) : ℤ :=
  let f := ratFloor q
  let r := q - (f : ℚ)
  if r < 1 / 2 then f
  else if 1 / 2 < r then f + 1
  else if f % 2 = 0 then f else f + 1

/-- Python `round(x, 1)`. -/
def round1 (q : ℚ) : ℚ := ((roundHalfEven (q * 10) : ℤ) : ℚ) / 10

/-- One output feature (the record serialized at lines 189-201). -/
structure Feature where
  lon : ℚ
  lat : ℚ
  infrastructure : Str
  fuel : Str
  available_mw : ℚ
  unavailable_mw : ℚ
  status : Str
deriving DecidableEq

/-- The per-registry-entry emission of `main` (lines 180-201): a stored
state yields its rounded pair and derived status; absence yields
0.0 / 0.0 / online. -/
def featureFor (state : StateMap) (e : Str × Generator) : Feature :=
  match dictGet state e.1 with
  | some p =>
    { lon := e.2.lon, lat := e.2.lat, infrastructure := e.2.infrastructure,
      fuel := e.2.fuel, available_mw := round1 p.1, unavailable_mw := round1 p.2,
      status := status_from_availability p.1 p.2 }
  | none =>
    { lon := e.2.lon, lat := e.2.lat, infrastructure := e.2.infrastructure,
      fuel := e.2.fuel, available_mw := round1 0, unavailable_mw := round1 0,
      status := "online".toList }

/-- The pure core of `main` (lines 136-207): decode `items`, fold the
messages into the per-run state, emit one feature per registry entry in
registry iteration order.  Network transport and file output are
incidental plumbing outside this model. -/
def runPipeline (parse : Str → Option Int) (now : Int) (generators : GenMap)
    (payload : JVal) : Except Unit (List Feature) :=
  match getItems payload with
  | .error e => .error e
  | .ok items =>
    match buildState parse now generators items with
    | .error e => .error e
    | .ok state => .ok (generators.map (featureFor state))

/-- Timestamp parser accepting nothing: models `dateutil.isoparse` on a
run where every encountered timestamp string is malformed. -/
def pfNone : Str → Option Int := fun _ => none

/-- Tiny concrete timestamp parser for witnesses: three known strings. -/
def pfDemo : Str → Option Int := fun s =>
  if s = ("T0".toList) then some 0
  else if s = ("T10".toList) then some 10
  else if s = ("T20".toList) then some 20
  else none

/-- Float-literal parser stub for witnesses: every cell reads as 0. -/
def fpDemo : Str → Option ℚ := fun _ => some 0

/-- Concrete active period with unavailable = 70. -/
def tpA : JVal := .jobj
  [(kEventStart, .jstr ("T0".toList)), (kEventStop, .jstr ("T20".toList)),
   (kAvailableCapacity, .jnum 30), (kUnavailableCapacity, .jnum 70)]

/-- Concrete active period with unavailable = 10. -/
def tpB : JVal := .jobj
  [(kEventStart, .jstr ("T0".toList)), (kEventStop, .jstr ("T20".toList)),
   (kAvailableCapacity, .jnum 90), (kUnavailableCapacity, .jnum 10)]

/-- Generation-unit object holding the two periods above. -/
def guObjAB : JVal := .jobj [(kTimePeriods, .jarr [tpA, tpB])]

/-- Period with both timestamps missing. -/
def tpNoStart : JVal := .jobj [(kAvailableCapacity, .jnum 5)]

/-- Period whose `eventStart` is a present but unparsable string. -/
def tpBadStart : JVal := .jobj [(kEventStart, .jstr ("never".toList))]

/-- Concrete registry CSV row. -/
def rowA : Row :=
  { infrastructure := some ("  Poolbeg gu_4001 unit  ".toList),
    lat := some ("53.3".toList), lon := some ("-6.2".toList),
    fuel := some ("gas".toList) }

/-- One-row registry input. -/
def rows1 : List Row := [rowA]

/-- The registry loaded from `rows1`. -/
def gens1 : GenMap :=
  match load_generators fpDemo rows1 with
  | .ok g => g
  | .error _ => []

/-- Features emitted from `gens1` with an empty state. -/
def feats1 : List Feature := gens1.map (featureFor [])

/-- Concrete GU code for witnesses. -/
def kGU1 : Str := "GU_1".toList

/-- Concrete one-entry state map. -/
def stA : StateMap := [(kGU1, (70, 30))]

/-- Concrete generator record for witnesses. -/
def genA : Generator :=
  { infrastructure := ("GU_1 demo".toList), gu_code := kGU1,
    lat := 1, lon := 2, fuel := [] }

/-- The key loaded from `rowA`. -/
def k0 : Str := "GU_4001".toList

/-- The record loaded from `rowA`. -/
def g0 : Generator :=
  { infrastructure := ("Poolbeg gu_4001 unit".toList), gu_code := k0,
    lat := 0, lon := 0, fuel := ("gas".toList) }

theorem dictGet_dictInsert_self {α : Type} (m : List (Str × α)) (k : Str) (v : α) :
    dictGet (dictInsert m k v) k = some v := by
  induction m with
  | nil => simp [dictInsert, dictGet]
  | cons hd t ih =>
    obtain ⟨k2, v2⟩ := hd
    by_cases h : k2 = k
    · simp [dictInsert, dictGet, h]
    · simp [dictInsert, dictGet, h, ih]

theorem mem_dictInsert {α : Type} (m : List (Str × α)) (k : Str) (v : α)
    (x : Str × α) (hx : x ∈ dictInsert m k v) : x = (k, v) ∨ x ∈ m := by
  induction m with
  | nil => simpa [dictInsert] using hx
  | cons hd t ih =>
    obtain ⟨k2, v2⟩ := hd
    by_cases h : k2 = k
    · simp only [dictInsert, if_pos h] at hx
      rcases List.mem_cons.1 hx with h1 | h1
      · left; rw [h1, h]
      · right; exact List.mem_cons_of_mem _ h1
    · simp only [dictInsert, if_neg h] at hx
      rcases List.mem_cons.1 hx with h1 | h1
      · right; rw [h1]; exact List.mem_cons_self _ _
      · rcases ih h1 with h2 | h2
        · left; exact h2
        · right; exact List.mem_cons_of_mem _ h2

theorem round1_zero : round1 0 = 0 := by
  norm_num [round1, roundHalfEven, ratFloor]

theorem featureFor_absent (state : StateMap) (gu : Str) (gen : Generator)
    (h : dictGet state gu = none) :
    featureFor state (gu, gen) =
      { lon := gen.lon, lat := gen.lat, infrastructure := gen.infrastructure,
        fuel := gen.fuel, available_mw := 0, unavailable_mw := 0,
        status := "online".toList } := by
  simp [featureFor, h, round1_zero]

/-- Claim C4: when a state entry already exists for a unit code and
another resolved pair arrives, the engine keeps whichever pair has the
larger unavailable value, replacing both components together (never
mixing components across messages). -/
theorem C4_merge_keeps_larger_unavailable (state : StateMap) (gu : Str)
    (prev : ℚ × ℚ) (a u : ℚ) (h : dictGet state gu = some prev) :
    dictGet (mergeState state gu (a, u)) gu =
      some (if prev.2 < u then (a, u) else prev) := by
  unfold mergeState
  rw [h]
  by_cases hlt : prev.2 < u
  · simp only [if_pos hlt]
    exact dictGet_dictInsert_self state gu (a, u)
  · simp only [if_neg hlt]
    exact h

theorem C4_witness :
    dictGet (mergeState stA kGU1 ((20 : ℚ), (80 : ℚ))) kGU1 = some (20, 80) := by
  have h := C4_merge_keeps_larger_unavailable stA kGU1 (70, 30) 20 80 (by rfl)
  simpa using h

/-- Claim C9: on an exact tie in the unavailable component the stored
pair wins — the comparison is strict, so among messages with equal
unavailable the earliest-processed pair is kept (the state is unchanged). -/
theorem C9_merge_tie_keeps_stored (state : StateMap) (gu : Str)
    (prev : ℚ × ℚ) (a u : ℚ) (h : dictGet state gu = some prev)
    (hu : u = prev.2) : mergeState state gu (a, u) = state := by
  unfold mergeState
  rw [h, hu]
  simp

theorem C9_witness : mergeState stA kGU1 ((99 : ℚ), (30 : ℚ)) = stA :=
  C9_merge_tie_keeps_stored stA kGU1 (70, 30) 99 30 (by rfl) (by norm_num)

/-- Claim C5: the status label is "online" iff unavailable equals 0
exactly (tested first, so available is irrelevant then), else "offline"
iff available equals 0 exactly, else "partial"; comparisons are exact. -/
theorem C5_status_derivation (a u : ℚ) :
    (u = 0 → status_from_availability a u = "online".toList)
    ∧ (u ≠ 0 → a = 0 → status_from_availability a u = "offline".toList)
    ∧ (u ≠ 0 → a ≠ 0 → status_from_availability a u = "partial".toList) := by
  refine ⟨fun hu => ?_, fun hu ha => ?_, fun hu ha => ?_⟩
  · simp [status_from_availability, hu]
  · simp [status_from_availability, hu, ha]
  · simp [status_from_availability, hu, ha]

theorem C5_witness :
    status_from_availability 0 0 = "online".toList
    ∧ status_from_availability 0 5 = "offline".toList
    ∧ status_from_availability 3 5 = "partial".toList :=
  ⟨(C5_status_derivation 0 0).1 rfl,
   (C5_status_derivation 0 5).2.1 (by norm_num) rfl,
   (C5_status_derivation 3 5).2.2 (by norm_num) (by norm_num)⟩

/-- Claim C6: a registry entry whose code has no recorded state yields a
feature with available_mw = 0.0, unavailable_mw = 0.0 and status
"online". -/
theorem C6_absence_default (state : StateMap) (gu : Str) (gen : Generator)
    (h : dictGet state gu = none) :
    (featureFor state (gu, gen)).available_mw = 0
    ∧ (featureFor state (gu, gen)).unavailable_mw = 0
    ∧ (featureFor state (gu, gen)).status = "online".toList := by
  rw [featureFor_absent state gu gen h]
  exact ⟨rfl, rfl, rfl⟩

theorem C6_witness :
    (featureFor [] (kGU1, genA)).available_mw = 0
    ∧ (featureFor [] (kGU1, genA)).unavailable_mw = 0
    ∧ (featureFor [] (kGU1, genA)).status = "online".toList :=
  C6_absence_default [] kGU1 genA rfl

theorem pyUpper_digit (c : Char) (h : isDigitCh c = true) : pyUpper c = c := by
  have hl : isLowerCh c = false := by
    simp only [isDigitCh, Bool.and_eq_true, decide_eq_true_eq] at h
    by_contra hc
    rw [Bool.not_eq_false] at hc
    simp only [isLowerCh, Bool.and_eq_true, decide_eq_true_eq] at hc
    omega
  simp [pyUpper, hl]

theorem map_pyUpper_digits (ds : Str) (hds : ∀ c ∈ ds, isDigitCh c = true) :
    ds.map pyUpper = ds := by
  induction ds with
  | nil => rfl
  | cons c t ih =>
    simp only [List.map_cons]
    rw [pyUpper_digit c (hds c (List.mem_cons_self c t)),
      ih (fun x hx => hds x (List.mem_cons_of_mem c hx))]

theorem guMatchAt_shape (s m : Str) (h : guMatchAt s = some m) :
    ∃ ds, ds ≠ [] ∧ (∀ c ∈ ds, isDigitCh c = true) ∧ m = 'G' :: 'U' :: '_' :: ds := by
  match s with
  | [] => simp [guMatchAt] at h
  | [g] => simp [guMatchAt] at h
  | [g, u] => simp [guMatchAt] at h
  | g :: u :: us :: rest =>
    simp only [guMatchAt] at h
    by_cases hg : g = 'G' ∧ u = 'U' ∧ us = '_'
    · rw [if_pos hg] at h
      by_cases he : (rest.takeWhile isDigitCh).isEmpty
      · rw [if_pos he] at h; cases h
      · rw [if_neg he] at h
        refine ⟨rest.takeWhile isDigitCh, ?_, ?_, ?_⟩
        · intro hnil; rw [hnil] at he; simp at he
        · intro c hc; exact List.mem_takeWhile_imp hc
        · injection h with h1; exact h1.symm
    · rw [if_neg hg] at h; cases h

theorem guSearch_shape (s m : Str) (h : guSearch s = some m) :
    ∃ ds, ds ≠ [] ∧ (∀ c ∈ ds, isDigitCh c = true) ∧ m = 'G' :: 'U' :: '_' :: ds := by
  induction s with
  | nil => simp [guSearch] at h
  | cons c cs ih =>
    unfold guSearch at h
    cases hm : guMatchAt (c :: cs) with
    | some m2 =>
      rw [hm] at h
      injection h with h1
      subst h1
      exact guMatchAt_shape _ _ hm
    | none => rw [hm] at h; exact ih h

theorem guMatchAt_code (ds : Str) (hne : ds ≠ [])
    (hds : ∀ c ∈ ds, isDigitCh c = true) :
    guMatchAt ('G' :: 'U' :: '_' :: ds) = some ('G' :: 'U' :: '_' :: ds) := by
  have htw : ds.takeWhile isDigitCh = ds := List.takeWhile_eq_self_iff.2 hds
  have hemp : ds.isEmpty = false := by
    cases ds with
    | nil => exact absurd rfl hne
    | cons a t => rfl
  simp only [guMatchAt, htw, hemp]
  simp

theorem guSearch_code (ds : Str) (hne : ds ≠ [])
    (hds : ∀ c ∈ ds, isDigitCh c = true) :
    guSearch ('G' :: 'U' :: '_' :: ds) = some ('G' :: 'U' :: '_' :: ds) := by
  unfold guSearch
  rw [guMatchAt_code ds hne hds]

/-- Claim C7: identifier extraction is case-insensitive (it depends only
on the upper-cased text, and `gu_1234` / `GU_1234` give the same code)
and idempotent (extracting from an already-extracted code returns it
unchanged); the result always matches `GU_` followed by one or more
digits; non-string or empty input yields nothing rather than an error. -/
theorem C7_extraction_case_insensitive_idempotent :
    (∀ s t : Str, s.map pyUpper = t.map pyUpper →
        extract_gu (.jstr s) = extract_gu (.jstr t))
    ∧ extract_gu (.jstr ("gu_1234".toList)) = some ("GU_1234".toList)
    ∧ extract_gu (.jstr ("GU_1234".toList)) = some ("GU_1234".toList)
    ∧ (∀ s c : Str, extract_gu (.jstr s) = some c → extract_gu (.jstr c) = some c)
    ∧ (∀ s c : Str, extract_gu (.jstr s) = some c → isGuCode c = true)
    ∧ (∀ v : JVal, v.isStr = false → extract_gu v = none)
    ∧ extract_gu (.jstr []) = none := by
  refine ⟨?_, by decide, by decide, ?_, ?_, ?_, by decide⟩
  · intro s t h
    simp only [extract_gu]
    rw [h]
  · intro s c h
    simp only [extract_gu] at h ⊢
    obtain ⟨ds, hne, hds, rfl⟩ := guSearch_shape _ _ h
    have hG : pyUpper 'G' = 'G' := by decide
    have hU : pyUpper 'U' = 'U' := by decide
    have hUnd : pyUpper '_' = '_' := by decide
    have hmap : ('G' :: 'U' :: '_' :: ds).map pyUpper = 'G' :: 'U' :: '_' :: ds := by
      simp only [List.map_cons, hG, hU, hUnd, map_pyUpper_digits ds hds]
    rw [hmap]
    exact guSearch_code ds hne hds
  · intro s c h
    simp only [extract_gu] at h
    obtain ⟨ds, hne, hds, rfl⟩ := guSearch_shape _ _ h
    have hemp : ds.isEmpty = false := by
      cases ds with
      | nil => exact absurd rfl hne
      | cons a t => rfl
    simp only [isGuCode, hemp, List.all_eq_true, Bool.and_eq_true, beq_self_eq_true,
      Bool.not_eq_true', and_true, true_and]
    exact hds
  · intro v hv
    cases v <;> simp_all [extract_gu, JVal.isStr]

theorem C7_witness :
    extract_gu (.jstr ("gu_77ab".toList)) = extract_gu (.jstr ("Gu_77AB".toList)) :=
  C7_extraction_case_insensitive_idempotent.1 ("gu_77ab".toList) ("Gu_77AB".toList)
    (by decide)

theorem extract_isGuCode (v : JVal) (c : Str) (h : extract_gu v = some c) :
    isGuCode c = true := by
  match v with
  | .jstr s =>
    simp only [extract_gu] at h
    obtain ⟨ds, hne, hds, rfl⟩ := guSearch_shape _ _ h
    have hemp : ds.isEmpty = false := by
      cases ds with
      | nil => exact absurd rfl hne
      | cons a t => rfl
    simp only [isGuCode, hemp, List.all_eq_true, Bool.and_eq_true, beq_self_eq_true,
      Bool.not_eq_true', and_true, true_and]
    exact hds
  | .jnull => simp [extract_gu] at h
  | .jbool b => simp [extract_gu] at h
  | .jnum q => simp [extract_gu] at h
  | .jarr xs => simp [extract_gu] at h
  | .jobj fs => simp [extract_gu] at h

theorem dropWhile_head_false (p : Char → Bool) (l : Str) (c : Char) (cs : Str)
    (h : l.dropWhile p = c :: cs) : p c = false := by
  induction l with
  | nil => simp [List.dropWhile] at h
  | cons a t ih =>
    by_cases hp : p a
    · rw [List.dropWhile_cons_of_pos hp] at h
      exact ih h
    · rw [List.dropWhile_cons_of_neg hp] at h
      injection h with h1 h2
      rw [← h1]
      exact Bool.of_not_eq_true hp

theorem dropWhile_self_dropWhile (p : Char → Bool) (l : Str) :
    (l.dropWhile p).dropWhile p = l.dropWhile p := by
  cases hd : l.dropWhile p with
  | nil => rfl
  | cons c cs =>
    rw [List.dropWhile_cons_of_neg]
    rw [dropWhile_head_false p l c cs hd]
    simp

theorem exists_append_dropWhile (p : Char → Bool) (l : Str) :
    ∃ pre, l = pre ++ l.dropWhile p := by
  induction l with
  | nil => exact ⟨[], rfl⟩
  | cons a t ih =>
    by_cases hp : p a
    · obtain ⟨pre, hpre⟩ := ih
      refine ⟨a :: pre, ?_⟩
      rw [List.dropWhile_cons_of_pos hp, List.cons_append, ← hpre]
    · exact ⟨[], by rw [List.dropWhile_cons_of_neg hp]; rfl⟩

theorem dropWhile_reverse_trim (p : Char → Bool) (l : Str) :
    List.dropWhile p (((l.dropWhile p).reverse.dropWhile p).reverse)
      = ((l.dropWhile p).reverse.dropWhile p).reverse := by
  cases hur : ((l.dropWhile p).reverse.dropWhile p).reverse with
  | nil => simp
  | cons c w =>
    obtain ⟨pre, hpre⟩ := exists_append_dropWhile p (l.dropWhile p).reverse
    have ht : l.dropWhile p = c :: (w ++ pre.reverse) := by
      have h1 := congrArg List.reverse hpre
      rw [List.reverse_reverse, List.reverse_append] at h1
      rw [hur] at h1
      simpa using h1
    have hpc : p c = false := dropWhile_head_false p l c (w ++ pre.reverse) ht
    rw [List.dropWhile_cons_of_neg (by rw [hpc]; simp)]

theorem pyStrip_idem (s : Str) : pyStrip (pyStrip s) = pyStrip s := by
  have h1 : (pyStrip s).dropWhile pyIsSpace = pyStrip s := by
    unfold pyStrip
    exact dropWhile_reverse_trim pyIsSpace s
  show (((pyStrip s).dropWhile pyIsSpace).reverse.dropWhile pyIsSpace).reverse = pyStrip s
  rw [h1]
  unfold pyStrip
  rw [List.reverse_reverse, dropWhile_self_dropWhile]

theorem load_inv (fp : Str → Option ℚ) (rows : List Row) :
    ∀ (acc gens : GenMap),
      (∀ k g, (k, g) ∈ acc →
        isGuCode k = true ∧ g.gu_code = k
          ∧ extract_gu (.jstr g.infrastructure) = some k
          ∧ g.infrastructure ≠ [] ∧ pyStrip g.infrastructure = g.infrastructure) →
      List.foldlM (loadStep fp) acc rows = .ok gens →
      ∀ k g, (k, g) ∈ gens →
        isGuCode k = true ∧ g.gu_code = k
          ∧ extract_gu (.jstr g.infrastructure) = some k
          ∧ g.infrastructure ≠ [] ∧ pyStrip g.infrastructure = g.infrastructure := by
  induction rows with
  | nil =>
    intro acc gens hacc h
    simp only [List.foldlM_nil] at h
    injection h with h1
    rw [← h1]
    exact hacc
  | cons r rs ih =>
    intro acc gens hacc h
    simp only [List.foldlM_cons] at h
    cases hs : loadStep fp acc r with
    | error e =>
      rw [hs] at h
      exact absurd h (by simp [Bind.bind, Except.bind])
    | ok acc2 =>
      rw [hs] at h
      have h2 : List.foldlM (loadStep fp) acc2 rs = .ok gens := h
      refine ih acc2 gens ?_ h2
      unfold loadStep at hs
      by_cases hinfra : (pyStrip (r.infrastructure.getD [])).isEmpty
      · rw [if_pos hinfra] at hs
        injection hs with hs1
        rw [← hs1]
        exact hacc
      · rw [if_neg hinfra] at hs
        cases hgu : extract_gu (.jstr (pyStrip (r.infrastructure.getD []))) with
        | none => rw [hgu] at hs; injection hs with hs1; rw [← hs1]; exact hacc
        | some gu =>
          rw [hgu] at hs
          cases hlat : pyFloatCell fp r.lat with
          | error e => rw [hlat] at hs; cases hs
          | ok lat =>
            rw [hlat] at hs
            cases hlon : pyFloatCell fp r.lon with
            | error e => rw [hlon] at hs; cases hs
            | ok lon =>
              rw [hlon] at hs
              injection hs with hs1
              intro k g hkg
              rw [← hs1] at hkg
              rcases mem_dictInsert _ _ _ _ hkg with hnew | hold
              · rw [Prod.mk.injEq] at hnew
                obtain ⟨hk, hg⟩ := hnew
                subst hk
                subst hg
                refine ⟨extract_isGuCode _ _ hgu, rfl, hgu, ?_, pyStrip_idem _⟩
                intro hnil
                apply hinfra
                have h3 : pyStrip (r.infrastructure.getD []) = [] := hnil
                rw [h3]
                rfl
              · exact hacc k g hold

/-- Claim C10: every key of the loaded registry matches `GU_` followed
by digits, equals the record's `gu_code`, equals the code extracted from
the record's infrastructure text, and the infrastructure text is
non-empty and whitespace-trimmed. -/
theorem C10_registry_self_consistency (fp : Str → Option ℚ) (rows : List Row)
    (gens : GenMap) (k : Str) (g : Generator)
    (h : load_generators fp rows = .ok gens) (hm : (k, g) ∈ gens) :
    isGuCode k = true ∧ g.gu_code = k
      ∧ extract_gu (.jstr g.infrastructure) = some k
      ∧ g.infrastructure ≠ [] ∧ pyStrip g.infrastructure = g.infrastructure :=
  load_inv fp rows [] gens (by simp) h k g hm

theorem C10_witness :
    isGuCode k0 = true ∧ g0.gu_code = k0
      ∧ extract_gu (.jstr g0.infrastructure) = some k0
      ∧ g0.infrastructure ≠ [] ∧ pyStrip g0.infrastructure = g0.infrastructure :=
  C10_registry_self_consistency fpDemo rows1 gens1 k0 g0 (by rfl) (by decide)

theorem iso_safe (parse : Str → Option Int) (v : JVal)
    (h : jvalSafeDt parse v = true) :
    iso_to_dt parse v = .ok (dtOptOf parse v) := by
  by_cases hf : falsy v = true
  · simp [iso_to_dt, dtOptOf, hf]
  · unfold jvalSafeDt at h
    rw [Bool.or_eq_true] at h
    rcases h with h | h
    · exact absurd h hf
    · match v with
      | .jstr s =>
        simp only [Option.isSome_iff_exists] at h
        obtain ⟨t, ht⟩ := h
        simp [iso_to_dt, dtOptOf, hf, ht]
      | .jnull => simp at h
      | .jbool b => simp at h
      | .jnum q => simp at h
      | .jarr xs => simp at h
      | .jobj fs => simp at h

theorem iso_raises (parse : Str → Option Int) (v : JVal)
    (h : jvalSafeDt parse v = false) :
    iso_to_dt parse v = .error () := by
  unfold jvalSafeDt at h
  rw [Bool.or_eq_false_iff] at h
  obtain ⟨hf, hm⟩ := h
  match v with
  | .jstr s =>
    have hm2 : (parse s).isSome = false := hm
    cases hp : parse s with
    | none => simp [iso_to_dt, hf, hp]
    | some t => rw [hp] at hm2; simp at hm2
  | .jnull => simp [falsy] at hf
  | .jbool b => simp [iso_to_dt, hf]
  | .jnum q => simp [iso_to_dt, hf]
  | .jarr xs => simp [iso_to_dt, hf]
  | .jobj fs => simp [iso_to_dt, hf]

theorem tpLoop_cons_safe (parse : Str → Option Int) (now : Int) (tp : JVal)
    (rest : List JVal) (hs : tpSafe parse tp = true) :
    tpLoop parse now (tp :: rest) =
      match tpSelect parse now tp with
      | some p => .ok (some p)
      | none => tpLoop parse now rest := by
  by_cases hobj : tp.isObj = true
  · have hs2 : jvalSafeDt parse (jget tp kEventStart) = true ∧
        jvalSafeDt parse (jget tp kEventStop) = true := by
      unfold tpSafe at hs
      rw [hobj] at hs
      simpa using hs
    simp only [tpLoop, hobj, if_true, iso_safe parse _ hs2.1, iso_safe parse _ hs2.2]
    simp only [tpSelect, hobj, if_true]
    cases h1 : dtOptOf parse (jget tp kEventStart) with
    | none => rfl
    | some sVal =>
      cases h2 : dtOptOf parse (jget tp kEventStop) with
      | none => rfl
      | some eVal =>
        by_cases hin : sVal ≤ now ∧ now ≤ eVal
        · dsimp only
          rw [if_pos hin, if_pos hin]
          cases h3 : num (jget tp kAvailableCapacity) with
          | none => rfl
          | some a =>
            cases h4 : num (jget tp kUnavailableCapacity) with
            | none => rfl
            | some u => rfl
        · dsimp only
          rw [if_neg hin, if_neg hin]
  · have hobj2 : tp.isObj = false := Bool.of_not_eq_true hobj
    simp only [tpLoop, hobj2, Bool.false_eq_true, if_false]
    simp only [tpSelect, hobj2, Bool.false_eq_true, if_false]

theorem tpLoop_cons_raises (parse : Str → Option Int) (now : Int) (tp : JVal)
    (rest : List JVal) (hobj : tp.isObj = true) (hs : tpSafe parse tp = false) :
    tpLoop parse now (tp :: rest) = .error () := by
  unfold tpSafe at hs
  rw [hobj] at hs
  simp only [Bool.not_true, Bool.false_or, Bool.and_eq_false_iff] at hs
  by_cases hA : jvalSafeDt parse (jget tp kEventStart) = true
  · have hB : jvalSafeDt parse (jget tp kEventStop) = false := by
      rcases hs with h | h
      · rw [hA] at h; cases h
      · exact h
    simp only [tpLoop, hobj, if_true, iso_safe parse _ hA, iso_raises parse _ hB]
  · have hA2 : jvalSafeDt parse (jget tp kEventStart) = false :=
      Bool.of_not_eq_true hA
    simp only [tpLoop, hobj, if_true, iso_raises parse _ hA2]

theorem tpLoop_findSome (parse : Str → Option Int) (now : Int) (tps : List JVal)
    (hsafe : ∀ tp ∈ tps, tpSafe parse tp = true) :
    tpLoop parse now tps = .ok (List.findSome? (tpSelect parse now) tps) := by
  induction tps with
  | nil => rfl
  | cons tp rest ih =>
    have hrest := fun x hx => hsafe x (List.mem_cons_of_mem tp hx)
    rw [tpLoop_cons_safe parse now tp rest (hsafe tp (List.mem_cons_self tp rest))]
    rw [List.findSome?_cons]
    cases hsel : tpSelect parse now tp with
    | none => exact ih hrest
    | some p => rfl

theorem dtOptOf_falsy (parse : Str → Option Int) (v : JVal) (h : falsy v = true) :
    dtOptOf parse v = none := by
  simp [dtOptOf, h]

/-- Claim C3: for a generation-unit object with a time-period list, when
no period raises, the resolver returns exactly the first period in
source order selected by `tpSelect` (parsed bounds contain `now`
inclusively and both capacities numeric); a period with `now` strictly
outside its parsed bounds is never selected, and a period containing
`now` with numeric capacities yields its (available, unavailable) pair. -/
theorem C3_first_active_period (parse : Str → Option Int) (now : Int)
    (gu_obj : JVal) (tps : List JVal) (hobj : gu_obj.isObj = true)
    (htps : jget gu_obj kTimePeriods = .jarr tps)
    (hsafe : ∀ tp ∈ tps, tpSafe parse tp = true) :
    parse_time_period_for_now parse gu_obj now
        = .ok (List.findSome? (tpSelect parse now) tps)
    ∧ (∀ tp s e, tpTimesOf parse tp = some (s, e) → (now < s ∨ e < now) →
        tpSelect parse now tp = none)
    ∧ (∀ tp s e a u, tpTimesOf parse tp = some (s, e) → s ≤ now → now ≤ e →
        num (jget tp kAvailableCapacity) = some a →
        num (jget tp kUnavailableCapacity) = some u →
        tpSelect parse now tp = some (a, u)) := by
  refine ⟨?_, ?_, ?_⟩
  · match gu_obj, hobj with
    | .jobj fs, _ =>
      unfold parse_time_period_for_now
      rw [htps]
      exact tpLoop_findSome parse now tps hsafe
  · intro tp s e hts hout
    by_cases ho : tp.isObj = true
    · unfold tpTimesOf at hts
      rw [if_pos ho] at hts
      cases h1 : dtOptOf parse (jget tp kEventStart) with
      | none => rw [h1] at hts; simp at hts
      | some s2 =>
        cases h2 : dtOptOf parse (jget tp kEventStop) with
        | none => rw [h1, h2] at hts; simp at hts
        | some e2 =>
          rw [h1, h2] at hts
          simp only [Option.some.injEq, Prod.mk.injEq] at hts
          obtain ⟨hsx, hex⟩ := hts
          subst hsx
          subst hex
          unfold tpSelect
          rw [if_pos ho, h1, h2]
          dsimp only
          rw [if_neg ?hc]
          case hc =>
            intro hcon
            rcases hout with h | h
            · omega
            · omega
    · unfold tpTimesOf at hts
      rw [if_neg ho] at hts
      cases hts
  · intro tp s e a u hts hs1 hs2 h3 h4
    by_cases ho : tp.isObj = true
    · unfold tpTimesOf at hts
      rw [if_pos ho] at hts
      cases h1 : dtOptOf parse (jget tp kEventStart) with
      | none => rw [h1] at hts; simp at hts
      | some s2 =>
        cases h2 : dtOptOf parse (jget tp kEventStop) with
        | none => rw [h1, h2] at hts; simp at hts
        | some e2 =>
          rw [h1, h2] at hts
          simp only [Option.some.injEq, Prod.mk.injEq] at hts
          obtain ⟨hsx, hex⟩ := hts
          subst hsx
          subst hex
          unfold tpSelect
          rw [if_pos ho, h1, h2]
          dsimp only
          rw [if_pos ⟨hs1, hs2⟩, h3, h4]
    · unfold tpTimesOf at hts
      rw [if_neg ho] at hts
      cases hts

theorem C3_witness :
    parse_time_period_for_now pfDemo guObjAB 10
      = .ok (List.findSome? (tpSelect pfDemo 10) [tpA, tpB]) :=
  (C3_first_active_period pfDemo 10 guObjAB [tpA, tpB] (by rfl) (by rfl)
    (by decide)).1

/-- Claim C2 is false as stated: a time period whose `eventStart` is a
present but unparsable string is NOT silently skipped — `iso_to_dt`
calls the timestamp parser with no exception handler, so the resolver
raises (here `pfNone` models `dateutil.isoparse` rejecting the string
"never").  The claim predicts this period would be ignored and the
resolver would return no active period. -/
theorem C2_counterexample :
    parse_time_period_for_now pfNone (.jobj [(kTimePeriods, .jarr [tpBadStart])]) 0
      = .error () := by rfl

/-- Claim C2 amended: a time-period whose `eventStart` or `eventStop` is
missing/falsy — provided neither field would make the parser raise — is
silently skipped and iteration continues with the remaining periods;
but a period whose timestamp field is present and unparsable (or a
truthy non-string) raises an error that aborts the whole resolver run. -/
theorem C2_missing_skipped_unparsable_raises (parse : Str → Option Int)
    (now : Int) (tp : JVal) (rest : List JVal) (hobj : tp.isObj = true) :
    (tpSafe parse tp = true →
      (falsy (jget tp kEventStart) = true ∨ falsy (jget tp kEventStop) = true) →
      tpLoop parse now (tp :: rest) = tpLoop parse now rest)
    ∧ (tpSafe parse tp = false → tpLoop parse now (tp :: rest) = .error ()) := by
  constructor
  · intro hs hmiss
    rw [tpLoop_cons_safe parse now tp rest hs]
    have hsel : tpSelect parse now tp = none := by
      unfold tpSelect
      rw [if_pos hobj]
      rcases hmiss with h | h
      · rw [dtOptOf_falsy parse _ h]
      · cases h1 : dtOptOf parse (jget tp kEventStart) with
        | none => rfl
        | some sv => rw [dtOptOf_falsy parse _ h]
    rw [hsel]
  · intro hs
    exact tpLoop_cons_raises parse now tp rest hobj hs

theorem C2_witness :
    tpLoop pfNone 0 (tpNoStart :: []) = tpLoop pfNone 0 []
    ∧ tpLoop pfNone 0 (tpBadStart :: []) = .error () :=
  ⟨(C2_missing_skipped_unparsable_raises pfNone 0 tpNoStart [] (by rfl)).1
      (by decide) (by decide),
   (C2_missing_skipped_unparsable_raises pfNone 0 tpBadStart [] (by rfl)).2
      (by decide)⟩

theorem featureFor_fields (state : StateMap) (e : Str × Generator) :
    (featureFor state e).infrastructure = e.2.infrastructure
    ∧ (featureFor state e).lat = e.2.lat ∧ (featureFor state e).lon = e.2.lon := by
  unfold featureFor
  cases dictGet state e.1 with
  | none => exact ⟨rfl, rfl, rfl⟩
  | some p => exact ⟨rfl, rfl, rfl⟩

/-- Claim C1: whenever the pipeline completes, the output feature list
has exactly one feature per loaded registry entry, in registry
iteration order (the i-th feature carries the i-th registry record's
infrastructure and coordinates), so the feature count equals the
registry size regardless of the fetched payload. -/
theorem C1_one_feature_per_registry_entry (parse : Str → Option Int) (now : Int)
    (gens : GenMap) (payload : JVal) (feats : List Feature)
    (h : runPipeline parse now gens payload = .ok feats) :
    feats.length = gens.length
    ∧ ∀ (i : Nat) (gu : Str) (gen : Generator), gens[i]? = some (gu, gen) →
        ∃ f : Feature, feats[i]? = some f ∧ f.infrastructure = gen.infrastructure
          ∧ f.lat = gen.lat ∧ f.lon = gen.lon := by
  unfold runPipeline at h
  cases hi : getItems payload with
  | error e => rw [hi] at h; cases h
  | ok items =>
    rw [hi] at h
    have h2 : (match buildState parse now gens items with
        | Except.error e => (Except.error e : Except Unit (List Feature))
        | Except.ok state => Except.ok (List.map (featureFor state) gens))
        = Except.ok feats := h
    cases hb : buildState parse now gens items with
    | error e =>
      rw [hb] at h2
      have h3 : (Except.error e : Except Unit (List Feature)) = Except.ok feats := h2
      cases h3
    | ok state =>
      rw [hb] at h2
      have h3 : Except.ok (List.map (featureFor state) gens) = Except.ok feats := h2
      have hf : feats = gens.map (featureFor state) := by
        injection h3 with h1
        exact h1.symm
      subst hf
      constructor
      · exact List.length_map gens (featureFor state)
      · intro i gu gen hig
        refine ⟨featureFor state (gu, gen), ?_, ?_, ?_, ?_⟩
        · rw [List.getElem?_map, hig]
          rfl
        · exact (featureFor_fields state (gu, gen)).1
        · exact (featureFor_fields state (gu, gen)).2.1
        · exact (featureFor_fields state (gu, gen)).2.2

theorem C1_witness : feats1.length = gens1.length :=
  (C1_one_feature_per_registry_entry pfNone 0 gens1 (.jobj []) feats1 (by rfl)).1

/-- Claim C8: a payload whose `items` field is missing or not an array
is treated as an empty message set and the run yields the absence
default for every registry entry; a non-dict item, an item without a
`generationUnits` list, and a non-dict generation-unit entry are each
ignored without aborting the run. -/
theorem C8_malformed_payload_tolerated (parse : Str → Option Int) (now : Int)
    (gens : GenMap) :
    (∀ fs, jlookup fs kItems = none →
        runPipeline parse now gens (.jobj fs) = .ok (gens.map (featureFor [])))
    ∧ (∀ fs v, jlookup fs kItems = some v → v.isArr = false →
        runPipeline parse now gens (.jobj fs) = .ok (gens.map (featureFor [])))
    ∧ (∀ state msg, msg.isObj = false →
        processMsg parse now gens state msg = .ok state)
    ∧ (∀ state msg, msg.isObj = true → (jget msg kGenerationUnits).isArr = false →
        processMsg parse now gens state msg = .ok state)
    ∧ (∀ state gu_obj, gu_obj.isObj = false →
        processGu parse now gens state gu_obj = .ok state)
    ∧ (∀ gu gen, featureFor ([] : StateMap) (gu, gen) =
        { lon := gen.lon, lat := gen.lat, infrastructure := gen.infrastructure,
          fuel := gen.fuel, available_mw := 0, unavailable_mw := 0,
          status := "online".toList }) := by
  have getItems_obj : ∀ fs : List (Str × JVal),
      getItems (.jobj fs) = (match (jlookup fs kItems).getD (.jarr []) with
        | .jarr xs => Except.ok xs
        | _ => Except.ok []) := fun _ => rfl
  refine ⟨?_, ?_, ?_, ?_, ?_, ?_⟩
  · intro fs hl
    unfold runPipeline
    rw [getItems_obj fs, hl]
    rfl
  · intro fs v hl hv
    unfold runPipeline
    rw [getItems_obj fs, hl]
    cases v with
    | jarr xs => simp [JVal.isArr] at hv
    | jnull => rfl
    | jbool b => rfl
    | jnum q => rfl
    | jstr s => rfl
    | jobj fs2 => rfl
  · intro state msg hm
    unfold processMsg
    rw [hm]
    rfl
  · intro state msg hm hgus
    unfold processMsg
    rw [if_pos hm]
    cases hg : jget msg kGenerationUnits with
    | jarr xs => rw [hg] at hgus; simp [JVal.isArr] at hgus
    | jnull => rfl
    | jbool b => rfl
    | jnum q => rfl
    | jstr s => rfl
    | jobj fs2 => rfl
  · intro state gu_obj hg
    unfold processGu
    rw [hg]
    rfl
  · intro gu gen
    exact featureFor_absent [] gu gen rfl

theorem C8_witness :
    runPipeline pfNone 0 gens1 (.jobj []) = .ok (gens1.map (featureFor [])) :=
  (C8_malformed_payload_tolerated pfNone 0 gens1).1 [] rfl

end UMM
